import Mathlib

/-!
Verification of the grinder-webtest specification against a shallow
embedding of the repository's code (`webtest/runner.py`, `webtest/parser.py`,
`webtest/macro.py`).

Python strings are modelled as `List Char`; the Python `dict` of variables is
modelled as an association list with replace-or-append assignment; functions
that may raise are modelled with `Except`; the unbounded `while` loop of
`eval_expressions` is modelled with an explicit fuel parameter that bounds the
number of iterations (`.noFuel` means the loop has not finished within the
given number of iterations).
-/

namespace Webtest

/-- Python strings are modelled as lists of characters. -/
abbrev Str := List Char

/-- Character data of a Lean string literal, for stating concrete facts. -/
def stl (s : String) : Str := s.data

/-- The variable store (`self.variables`), a Python dict from names to string
values, modelled as an association list looked up front-to-back. -/
abbrev Store := List (Str × Str)

/-- Python `variables[name]` read access (`None`-free: `KeyError` is `none`). -/
def lookupVar : Store → Str → Option Str
  | [], _ => none
  | (k, v) :: rest, n => if k = n then some v else lookupVar rest n

/-- Python `variables[name] = value`: replace the existing binding or append. -/
def setVar : Store → Str → Str → Store
  | [], n, v => [(n, v)]
  | (k, w) :: rest, n, v =>
    if k = n then (n, v) :: rest else (k, w) :: setVar rest n v

/-! ### Character classes of the regular expressions in `eval_expressions`

`runner.py` lines 572-580:

* `re_expansion = r'((?:[^{\\]|\\.)*){((?:[^}\\]|\\.)*)}(.*)'`
* `re_var_macro = '([_A-Z0-0-99]+) ?= ?([_a-z]+)\(([^)]*)\)'`
* `re_var_literal = '([_A-Z0-9]+) ?= ?([^}]+)'`
* `re_macro = '([_a-z]+)\(([^)]*)\)'`
* `re_var = '([_A-Z0-9]+)'`

Note that the character class of `re_var_macro` is `[_A-Z0-0-99]`, which
denotes the set `_`, `A`-`Z`, `0`, literal `-`, `9` (the ranges are `0-0`
and the stray `-9` contributes a literal `-` and a `9`): digits `1`-`8`
are not in the class.  All other name classes are `[_A-Z0-9]`.
-/

/-- The class `[_A-Z0-9]` used by `re_var_literal`, `re_var`, `re_capture`. -/
def isVarChar (c : Char) : Bool :=
  ('A' ≤ c && c ≤ 'Z') || ('0' ≤ c && c ≤ '9') || c == '_'

/-- The class `[_A-Z0-0-99]` used by `re_var_macro` (`runner.py` line 574),
transcribed literally: underscore, `A`-`Z`, the range `0-0`, a literal `-`,
and `9`. -/
def isVarMacChar (c : Char) : Bool :=
  ('A' ≤ c && c ≤ 'Z') || c == '0' || c == '-' || c == '9' || c == '_'

/-- The class `[_a-z]` used for macro names. -/
def isMacChar (c : Char) : Bool :=
  ('a' ≤ c && c ≤ 'z') || c == '_'

/-! ### `re_expansion` matching

`re_expansion.match(value)` with pattern `((?:[^{\\]|\\.)*){((?:[^}\\]|\\.)*)}(.*)`.
The alternatives `[^{\\]` and `\\.` are disjoint on their first character, so
the greedy scan is deterministic: group 1 consumes characters other than `{`
and `\`, or a backslash followed by any character except newline (`.` does not
match a newline), up to an unescaped `{`; group 2 likewise up to an unescaped
`}`; group 3 is `.*`, i.e. the rest of the string up to (excluding) the first
newline. -/

/-- Scan for group 1 of `re_expansion`: the text before the first unescaped
`{`, or `none` when the rest of the pattern cannot match. -/
def takeUntilOpen : Str → Option (Str × Str)
  | [] => none
  | c :: rest =>
    if c = '{' then some ([], rest)
    else if c = '\\' then
      match rest with
      | [] => none
      | d :: rest2 =>
        if d = '\n' then none
        else
          match takeUntilOpen rest2 with
          | none => none
          | some (b, r) => some (c :: d :: b, r)
    else
      match takeUntilOpen rest with
      | none => none
      | some (b, r) => some (c :: b, r)

/-- Scan for group 2 of `re_expansion`: the expression before the first
unescaped `}`. -/
def takeUntilClose : Str → Option (Str × Str)
  | [] => none
  | c :: rest =>
    if c = '}' then some ([], rest)
    else if c = '\\' then
      match rest with
      | [] => none
      | d :: rest2 =>
        if d = '\n' then none
        else
          match takeUntilClose rest2 with
          | none => none
          | some (b, r) => some (c :: d :: b, r)
    else
      match takeUntilClose rest with
      | none => none
      | some (b, r) => some (c :: b, r)

/-- `re_expansion.match(value)`: groups `(before, expression, after)`.
Group 3 (`.*`) stops at the first newline after the closing `}`; the code
reassembles `value = before + expanded + after`, so any text beyond that
newline is dropped by the loop. -/
def matchExpansion (value : Str) : Option (Str × Str × Str) :=
  match takeUntilOpen value with
  | none => none
  | some (before, r1) =>
    match takeUntilClose r1 with
    | none => none
    | some (e, rest) => some (before, e, rest.takeWhile (· ≠ '\n'))

/-! ### The four expression rules, in the order the code tries them -/

/-- `re_var_macro.match(expression)` from `runner.py` line 590: groups
`(NAME, macroName, args)`.  Trailing text after the closing `)` is ignored
(the code uses `match`, not `fullmatch`). -/
def matchVarMac (e : Str) : Option (Str × Str × Str) :=
  let name := e.takeWhile isVarMacChar
  let r := e.dropWhile isVarMacChar
  if name.isEmpty then none
  else
    match r with
    | ' ' :: '=' :: r2 => matchVarMacTail name r2
    | '=' :: r2 => matchVarMacTail name r2
    | _ => none
where
  /-- After `NAME ?=`: an optional space, then `([_a-z]+)\(([^)]*)\)`. -/
  matchVarMacTail (name r2 : Str) : Option (Str × Str × Str) :=
    let r3 := match r2 with
              | ' ' :: rest => rest
              | _ => r2
    let mname := r3.takeWhile isMacChar
    let r4 := r3.dropWhile isMacChar
    if mname.isEmpty then none
    else
      match r4 with
      | '(' :: r5 =>
        let args := r5.takeWhile (· ≠ ')')
        match r5.dropWhile (· ≠ ')') with
        | ')' :: _ => some (name, mname, args)
        | _ => none
      | _ => none

/-- `re_var_literal.match(expression)` from `runner.py` line 595: groups
`(NAME, literal)`.  The literal is `([^}]+)`: at least one character, up to
the first `}` (trailing text after a `}` is ignored).  When a space follows
the `=` and nothing matchable follows the space, the regex engine backtracks
on the optional space, so the literal starts with the space itself. -/
def matchVarLiteral (e : Str) : Option (Str × Str) :=
  let name := e.takeWhile isVarChar
  let r := e.dropWhile isVarChar
  if name.isEmpty then none
  else
    match r with
    | ' ' :: '=' :: r2 => matchVarLiteralTail name r2
    | '=' :: r2 => matchVarLiteralTail name r2
    | _ => none
where
  /-- After `NAME ?=`: ` ?([^}]+)`, with backtracking on the optional space. -/
  matchVarLiteralTail (name r2 : Str) : Option (Str × Str) :=
    match r2 with
    | ' ' :: rest2 =>
      let lit := rest2.takeWhile (· ≠ '}')
      if lit.isEmpty then some (name, [' ']) else some (name, lit)
    | _ =>
      let lit := r2.takeWhile (· ≠ '}')
      if lit.isEmpty then none else some (name, lit)

/-- `re_macro.match(expression)` from `runner.py` line 601: groups
`(macroName, args)`. -/
def matchMacCall (e : Str) : Option (Str × Str) :=
  let mname := e.takeWhile isMacChar
  let r := e.dropWhile isMacChar
  if mname.isEmpty then none
  else
    match r with
    | '(' :: r2 =>
      let args := r2.takeWhile (· ≠ ')')
      match r2.dropWhile (· ≠ ')') with
      | ')' :: _ => some (mname, args)
      | _ => none
    | _ => none

/-- `re_var.match(expression)` from `runner.py` line 606: group `(NAME)`
(trailing text is ignored). -/
def matchVarRef (e : Str) : Option Str :=
  let name := e.takeWhile isVarChar
  if name.isEmpty then none else some name

/-! ### The expression-evaluation loop (`WebtestRunner.eval_expressions`) -/

/-- Errors raised by `eval_expressions` (and the fuel marker for a loop that
has not finished). -/
inductive EvalErr
  | nameError (name : Str)
  | syntaxError
  | valueError
  | noFuel
  deriving DecidableEq, Repr

/-- The macro registry: `Macro.invoke(macro_name, args)` from `macro.py`
returns the macro's string result, or `none` when `getattr` fails
(`AttributeError`, re-raised as `ValueError`). The concrete built-in macros
(`today`, `timestamp`, `random_digits`, ...) depend on the clock and the
random generator, so the registry is a parameter of the embedding. -/
abbrev MacFn := Str → Str → Option Str

/-- The body of one iteration of the `while to_expand:` loop of
`eval_expressions` (`runner.py` lines 589-616): try the four rules in order
on the matched expression; produce the expansion and the updated store. -/
def evalStep (mfn : MacFn) (vars : Store) (e : Str) : Except EvalErr (Str × Store) :=
  match matchVarMac e with
  | some (name, mname, args) =>
    match mfn mname args with
    | some res => .ok (res, setVar vars name res)
    | none => .error .valueError
  | none =>
    match matchVarLiteral e with
    | some (name, lit) => .ok (lit, setVar vars name lit)
    | none =>
      match matchMacCall e with
      | some (mname, args) =>
        match mfn mname args with
        | some res => .ok (res, vars)
        | none => .error .valueError
      | none =>
        match matchVarRef e with
        | some name =>
          match lookupVar vars name with
          | some v => .ok (v, vars)
          | none => .error (.nameError name)
        | none => .error .syntaxError

/-- `WebtestRunner.eval_expressions` (`runner.py` lines 584-625): repeatedly
match `re_expansion`, evaluate the expression, and reassemble
`value = before + expanded + after`, until no `{...}` expression matches.
The store is threaded through even on failure, since the Python code mutates
`self.variables` in place.  `fuel` bounds the number of loop iterations;
`.noFuel` means the loop has not finished within `fuel` iterations. -/
def eval_expressions (mfn : MacFn) : Nat → Store → Str → Store × Except EvalErr Str
  | fuel, vars, value =>
    match matchExpansion value with
    | none => (vars, .ok value)
    | some (before, e, after) =>
      match fuel with
      | 0 => (vars, .error .noFuel)
      | fuel' + 1 =>
        match evalStep mfn vars e with
        | .error err => (vars, .error err)
        | .ok (expanded, vars') => eval_expressions mfn fuel' vars' (before ++ expanded ++ after)

instance {ε α : Type _} [DecidableEq ε] [DecidableEq α] : DecidableEq (Except ε α) := fun
  | .error e, .error f =>
    if h : e = f then .isTrue (by rw [h]) else .isFalse (fun hh => by cases hh; exact h rfl)
  | .error _, .ok _ => .isFalse (fun hh => by cases hh)
  | .ok _, .error _ => .isFalse (fun hh => by cases hh)
  | .ok a, .ok b =>
    if h : a = b then .isTrue (by rw [h]) else .isFalse (fun hh => by cases hh; exact h rfl)

/-- A concrete macro registry for witnesses: only the built-in name `today`
is registered, returning a fixed date string (the real `today` macro formats
the current date). -/
def mfnDemo : MacFn := fun n _ =>
  if n = stl "today" then some (stl "20111006") else none

example : eval_expressions mfnDemo 5 [] (stl "\x7bFOO = Hello\x7d") =
    ([(stl "FOO", stl "Hello")], .ok (stl "Hello")) := by decide

example : eval_expressions mfnDemo 5 [(stl "FOO", stl "Hello"), (stl "BAR", stl "world")]
    (stl "\x7bFOO\x7d \x7bBAR\x7d!") =
    ([(stl "FOO", stl "Hello"), (stl "BAR", stl "world")], .ok (stl "Hello world!")) := by
  decide

/-! ### The `.webtest` request record (`parser.Request`) -/

/-- `parser.Request`: the data of one `<Request ...>` element
(`parser.py` lines 97-111). -/
structure Request where
  url : Str
  method : Str
  body : Str
  headers : List (Str × Str)
  parameters : List (Str × Str)
  capture : Str
  description : Str
  line_number : Nat
  deriving DecidableEq, Repr

/-- `Request.__init__`: `url = attrs.get('Url', '')`,
`method = attrs.get('Method', 'GET')`; everything else starts empty. -/
def mkRequest (attrs : List (Str × Str)) (line_number : Nat) : Request :=
  { url := (lookupVar attrs (stl "Url")).getD []
    method := (lookupVar attrs (stl "Method")).getD (stl "GET")
    body := []
    headers := []
    parameters := []
    capture := []
    description := []
    line_number := line_number }

/-- The whitespace characters stripped by Python `str.strip()`. -/
def isPySpace (c : Char) : Bool :=
  c == ' ' || c == '\t' || c == '\n' || c == '\r' || c == '\x0b' || c == '\x0c'

/-- Python `str.strip()`. -/
def strip (s : Str) : Str :=
  ((s.dropWhile isPySpace).reverse.dropWhile isPySpace).reverse

/-- Split on line breaks (`\n` or `\r`); a `\r\n` pair yields an extra empty
piece, which `Request.captures` discards as blank, matching Python
`str.splitlines()` for the purposes of `captures()`. -/
def splitLinesGo : Str → Str → List Str
  | acc, [] => [acc.reverse]
  | acc, c :: rest =>
    if c = '\n' ∨ c = '\r' then acc.reverse :: splitLinesGo [] rest
    else splitLinesGo (c :: acc) rest

/-- Python `str.splitlines()` (up to empty pieces which the caller discards). -/
def splitLines (s : Str) : List Str :=
  if s.isEmpty then [] else splitLinesGo [] s

/-- `Request.captures()` (`parser.py` lines 159-172): the non-blank lines of
the capture block, each stripped of surrounding whitespace. -/
def Request.captureLines (req : Request) : List Str :=
  (splitLines req.capture).filterMap fun l =>
    let t := strip l
    if t.isEmpty then none else some t

/-! ### A small regular-expression engine

`eval_capture` applies the expanded capture pattern with `re.search`.  The
Python `re` module is external to the repository, so the searcher is a
parameter of the embedding of `eval_capture`; theorems about `eval_capture`
hold for every searcher.  For concrete witnesses we implement the fragment of
regular-expression syntax used by the specification's examples: literal
characters, a parenthesized group, and `[^c]+` (one or more characters other
than `c`, matched greedily). -/

/-- Tokens of the regular-expression fragment. -/
inductive RTok
  | lit (c : Char)
  | negPlus (c : Char)
  | gOpen
  | gClose
  deriving DecidableEq, Repr

/-- Tokenize a pattern of the supported fragment. -/
def lexRx : Str → List RTok
  | [] => []
  | '[' :: '^' :: c :: ']' :: '+' :: r => RTok.negPlus c :: lexRx r
  | '(' :: r => RTok.gOpen :: lexRx r
  | ')' :: r => RTok.gClose :: lexRx r
  | c :: r => RTok.lit c :: lexRx r

/-- The result of a successful `re.search`: the full matched span
(`match.group(0)`) and the list of captured groups (`match.groups()`). -/
structure ReMatch where
  full : Str
  groups : List Str
  deriving DecidableEq, Repr

/-- Match a token list against a prefix of `s`.  `g` accumulates the open
group (reversed), `groups` the completed groups (reversed), `acc` the full
matched text (reversed). -/
def runToks : List RTok → Str → Option Str → List Str → Str → Option (Str × List Str)
  | [], _, _, groups, acc => some (acc.reverse, groups.reverse)
  | .lit c :: ts, s, g, groups, acc =>
    match s with
    | [] => none
    | x :: s2 =>
      if x = c then runToks ts s2 (g.map (x :: ·)) groups (x :: acc) else none
  | .negPlus c :: ts, s, g, groups, acc =>
    let run := s.takeWhile (· ≠ c)
    if run.isEmpty then none
    else runToks ts (s.dropWhile (· ≠ c)) (g.map (run.reverse ++ ·)) groups
      (run.reverse ++ acc)
  | .gOpen :: ts, s, _, groups, acc => runToks ts s (some []) groups acc
  | .gClose :: ts, s, g, groups, acc =>
    match g with
    | none => none
    | some b => runToks ts s none (b.reverse :: groups) acc

/-- Try the match at each start position, leftmost first. -/
def searchFrom (toks : List RTok) : Str → Option ReMatch
  | [] =>
    match runToks toks [] none [] [] with
    | some (full, gs) => some ⟨full, gs⟩
    | none => none
  | c :: s2 =>
    match runToks toks (c :: s2) none [] [] with
    | some (full, gs) => some ⟨full, gs⟩
    | none => searchFrom toks s2

/-- A concrete model of `re.search(pattern, body)` for the supported
fragment. -/
def reSearch (pattern body : Str) : Option ReMatch :=
  searchFrom (lexRx pattern) body

/-- The type of the searcher parameter (`re.search`). -/
abbrev SearchFn := Str → Str → Option ReMatch

example : reSearch (stl "<SID>([^<]+)</SID>") (stl "<x/><SID>314159265</SID><y/>") =
    some ⟨stl "<SID>314159265</SID>", [stl "314159265"]⟩ := by decide

example : reSearch (stl "<SID>[^<]+</SID>") (stl "<x/><SID>314159265</SID><y/>") =
    some ⟨stl "<SID>314159265</SID>", []⟩ := by decide

/-! ### `WebtestRunner.eval_capture` (`runner.py` lines 628-739) -/

/-- `re_capture = '^{([_A-Z0-9]+) ?= ?(.+)}$'`, applied with `re.search` to a
stripped capture line.  `(.+)` is greedy (up to the final `}`), must be
non-empty, and `.` does not match a newline — a stripped single line contains
none.  As with `re_var_literal`, when a space follows the `=` and too little
remains after it, the engine backtracks on the optional space. -/
def matchCapture (line : Str) : Option (Str × Str) :=
  match line with
  | '{' :: rest =>
    let name := rest.takeWhile isVarChar
    let r := rest.dropWhile isVarChar
    if name.isEmpty then none
    else
      match r with
      | ' ' :: '=' :: r2 => matchCaptureTail name r2
      | '=' :: r2 => matchCaptureTail name r2
      | _ => none
  | _ => none
where
  /-- After `{NAME ?=`: ` ?(.+)}$` with backtracking on the optional space. -/
  matchCaptureTail (name r2 : Str) : Option (Str × Str) :=
    match r2 with
    | ' ' :: rest2 =>
      match stripFinalBrace rest2 with
      | some v => some (name, v)
      | none => (stripFinalBrace r2).map (fun v => (name, v))
    | _ => (stripFinalBrace r2).map (fun v => (name, v))
  /-- `(.+)}$`: the string must end in `}` preceded by at least one
  character; return that non-empty part. -/
  stripFinalBrace (s : Str) : Option Str :=
    if 2 ≤ s.length ∧ s.getLast? = some '}' then some s.dropLast else none

/-- Errors raised by `eval_capture`: `SyntaxError` for a line that does not
match `re_capture`, `CaptureFailed` when a pattern finds no match in the
response body, or an error propagated from `eval_expressions`. -/
inductive CapErr
  | syntaxError
  | captureFailed
  | evalFail (e : EvalErr)
  deriving DecidableEq, Repr

/-- `runner.py` lines 731-736: if the match has capturing groups, the
captured value is the first group's text, otherwise the entire matched
span. -/
def groupValue (m : ReMatch) : Str :=
  match m.groups with
  | [] => m.full
  | g :: _ => g

/-- The `for expression in request.captures():` loop of `eval_capture`
(`runner.py` lines 706-739).  The store is threaded through even on failure
since the Python code mutates `self.variables` in place. -/
def evalCaptureLines (search : SearchFn) (mfn : MacFn) (fuel : Nat) (body : Str) :
    List Str → Store → Store × Except CapErr Unit
  | [], vars => (vars, .ok ())
  | line :: rest, vars =>
    match matchCapture line with
    | none => (vars, .error .syntaxError)
    | some (name, value) =>
      match eval_expressions mfn fuel vars value with
      | (vars1, .error e) => (vars1, .error (.evalFail e))
      | (vars1, .ok regexp) =>
        match search regexp body with
        | none => (vars1, .error .captureFailed)
        | some m =>
          evalCaptureLines search mfn fuel body rest (setVar vars1 name (groupValue m))

/-- `WebtestRunner.eval_capture(request, response)`: if the capture block is
blank the function returns immediately; otherwise every capture line is
processed in order.  The Python function's return value is modelled as
`Option Nat` (`none` is Python `None`); the source returns via a bare
`return` or by falling off the end, so no path produces a number. -/
def eval_capture (search : SearchFn) (mfn : MacFn) (fuel : Nat) (req : Request)
    (body : Str) (vars : Store) : Store × Except CapErr (Option Nat) :=
  if (strip req.capture).isEmpty then (vars, .ok none)
  else
    match evalCaptureLines search mfn fuel body req.captureLines vars with
    | (vars1, .ok ()) => (vars1, .ok none)
    | (vars1, .error e) => (vars1, .error e)

/-! ### `WebtestRunner.execute` (`runner.py` lines 742-800)

The HTTP transport (`wrapper.POST` / `wrapper.GET`) is external to the
repository; it is modelled as a function from method, url, and payload to
the response body.  Logging and think-time are side effects with no bearing
on the data flow and are omitted. -/

/-- Errors raised by `execute`. -/
inductive ExecErr
  | evalFail (e : EvalErr)
  | valueError
  | capFail (c : CapErr)
  deriving DecidableEq, Repr

/-- Evaluate expressions in each request parameter value in order, threading
the store (`runner.py` lines 753-757). -/
def evalParams (mfn : MacFn) (fuel : Nat) :
    List (Str × Str) → Store → Store × Except EvalErr (List (Str × Str))
  | [], vars => (vars, .ok [])
  | (n, v) :: rest, vars =>
    match eval_expressions mfn fuel vars v with
    | (vars1, .error e) => (vars1, .error e)
    | (vars1, .ok v1) =>
      match evalParams mfn fuel rest vars1 with
      | (vars2, .error e) => (vars2, .error e)
      | (vars2, .ok ps) => (vars2, .ok ((n, v1) :: ps))

/-- The abstract HTTP transport: method, url, payload ↦ response body. -/
abbrev HttpFn := Str → Str → List (Str × Str) → Str

/-- `WebtestRunner.execute`: evaluate the URL, evaluate the parameters,
dispatch on the request method (`POST` with a `StringHttpBody`, `POST` with
form parameters, or `GET`; anything else raises `ValueError`), then evaluate
captures when the request has a non-empty capture attribute. -/
def execute (http : HttpFn) (search : SearchFn) (mfn : MacFn) (fuel : Nat)
    (req : Request) (vars : Store) : Store × Except ExecErr Str :=
  match eval_expressions mfn fuel vars req.url with
  | (vars1, .error e) => (vars1, .error (.evalFail e))
  | (vars1, .ok url) =>
    match evalParams mfn fuel req.parameters vars1 with
    | (vars2, .error e) => (vars2, .error (.evalFail e))
    | (vars2, .ok params) =>
      if req.method = stl "POST" then
        if req.body.isEmpty then
          runResponse (http (stl "POST") url params) vars2
        else
          match eval_expressions mfn fuel vars2 req.body with
          | (vars3, .error e) => (vars3, .error (.evalFail e))
          | (vars3, .ok _) => runResponse (http (stl "POST") url params) vars3
      else if req.method = stl "GET" then
        runResponse (http (stl "GET") url params) vars2
      else
        (vars2, .error .valueError)
where
  /-- After the response arrives: `if request.capture: self.eval_capture(...)`
  (`runner.py` lines 796-798). -/
  runResponse (respBody : Str) (vars : Store) : Store × Except ExecErr Str :=
    if req.capture.isEmpty then (vars, .ok respBody)
    else
      match eval_capture search mfn fuel req respBody vars with
      | (vars1, .ok _) => (vars1, .ok respBody)
      | (vars1, .error e) => (vars1, .error (.capFail e))

/-! ### The sax content handler (`parser.WebtestHandler`) -/

/-- A sax parsing event delivered to the content handler.  `start` carries
the element name, its attributes, and the locator's current line number. -/
inductive XmlEvent
  | start (name : Str) (attrs : List (Str × Str)) (line : Nat)
  | chars (data : Str)
  | stop (name : Str)
  deriving DecidableEq, Repr

/-- The handler's mutable state (`WebtestHandler.__init__`):  the request
being built (if any), the completed requests, and `in_element`.  A completed
entry is `Option Request` because `endElement('Request')` appends
`self.request` even when it is `None`. -/
structure HandlerState where
  request : Option Request
  requests : List (Option Request)
  in_element : Str
  deriving DecidableEq, Repr

/-- The handler's initial state. -/
def initHandler : HandlerState :=
  { request := none, requests := [], in_element := [] }

/-- `Request._add_attrs` (`parser.py` lines 114-132): append `(Name, Value)`
only when `Name` is present and non-empty and `Value` is present. -/
def addAttrs (attrs : List (Str × Str)) (toList : List (Str × Str)) : List (Str × Str) :=
  match lookupVar attrs (stl "Name") with
  | some name =>
    if name.isEmpty then toList
    else
      match lookupVar attrs (stl "Value") with
      | some value => toList ++ [(name, value)]
      | none => toList
  | none => toList

/-- `WebtestHandler.startElement` (`parser.py` lines 216-251). -/
def startElement (st : HandlerState) (name : Str) (attrs : List (Str × Str))
    (line : Nat) : Except Str HandlerState :=
  if name = stl "Request" then
    .ok { st with request := some (mkRequest attrs line) }
  else if name = stl "Header" then
    match st.request with
    | none => .error (stl "not inside Request")
    | some req => .ok { st with request := some { req with headers := addAttrs attrs req.headers } }
  else if name = stl "QueryStringParameter" ∨ name = stl "FormPostParameter" then
    match st.request with
    | none => .error (stl "not inside Request")
    | some req => .ok { st with request := some { req with parameters := addAttrs attrs req.parameters } }
  else if name = stl "StringHttpBody" ∨ name = stl "Capture" ∨ name = stl "Description" then
    .ok { st with in_element := name }
  else
    .ok st

/-- `WebtestHandler.characters` (`parser.py` lines 254-274): empty data or
data outside the recognized content elements is ignored; data inside one of
them with no open request raises `MalformedXML`; otherwise the data is
appended to the corresponding field. -/
def charactersEvent (st : HandlerState) (data : Str) : Except Str HandlerState :=
  if data.isEmpty ∨ st.in_element.isEmpty then .ok st
  else
    match st.request with
    | none => .error (stl "Characters not inside Request")
    | some req =>
      if st.in_element = stl "StringHttpBody" then
        .ok { st with request := some { req with body := req.body ++ data } }
      else if st.in_element = stl "Capture" then
        .ok { st with request := some { req with capture := req.capture ++ data } }
      else if st.in_element = stl "Description" then
        .ok { st with request := some { req with description := req.description ++ data } }
      else
        .ok st

/-- `WebtestHandler.endElement` (`parser.py` lines 277-292). -/
def endElement (st : HandlerState) (name : Str) : HandlerState :=
  if name = stl "Request" then
    { st with requests := st.requests ++ [st.request], request := none }
  else if name = stl "StringHttpBody" ∨ name = stl "Capture" ∨ name = stl "Description" then
    { st with in_element := [] }
  else
    st

/-- Feed a list of sax events through the handler. -/
def runHandler : HandlerState → List XmlEvent → Except Str HandlerState
  | st, [] => .ok st
  | st, ev :: rest =>
    match ev with
    | .start name attrs line =>
      match startElement st name attrs line with
      | .error e => .error e
      | .ok st1 => runHandler st1 rest
    | .chars data =>
      match charactersEvent st data with
      | .error e => .error e
      | .ok st1 => runHandler st1 rest
    | .stop name => runHandler (endElement st name) rest

/-- `Webtest.parse` (`parser.py` lines 314-327): ill-formed markup makes the
sax parser raise `SAXParseException`, re-raised as `MalformedXML` (`none`
input); otherwise the event stream is fed to the handler and the collected
requests are returned. -/
def parseWebtest (doc : Option (List XmlEvent)) : Except Str (List (Option Request)) :=
  match doc with
  | none => .error (stl "MalformedXML")
  | some events =>
    match runHandler initHandler events with
    | .error e => .error e
    | .ok st => .ok st.requests

/-! ### Sequencing (`WebtestRunner.__call__`, `runner.py` lines 829-865) -/

/-- Thread-mode selection: `index = grinder.getThreadNumber() %
len(WebtestRunner.test_sets)`, then `test_sets[index]` (`runner.py` lines
840-844).  With an empty list, Python raises `ZeroDivisionError`, modelled
as `none`. -/
def threadSelect {α : Type _} (test_sets : List α) (threadNumber : Nat) : Option α :=
  if test_sets.isEmpty then none
  else test_sets.get? (threadNumber % test_sets.length)

/-- Weight normalization at registry build time (`runner.py` lines 493-498):
each weight is replaced by `float(weight) / total`.  Python floats are
modelled as rationals. -/
def normalizeWeights {α : Type _} (sets : List (α × ℚ)) : List (α × ℚ) :=
  let total := (sets.map Prod.snd).sum
  sets.map fun p => (p.1, p.2 / total)

/-- The interval scan of weighted selection (`runner.py` lines 846-860):
`left, right = 0.0, 0.0`, then for each test set `left = right;
right = left + weight; if left <= pick and pick <= right: break`.  When no
interval matches, the loop completes and the loop variable retains the last
test set, which is then run. -/
def weightedGo {α : Type _} (pick : ℚ) : ℚ → List (α × ℚ) → Option α
  | _, [] => none
  | left, (a, w) :: rest =>
    if left ≤ pick ∧ pick ≤ left + w then some a
    else
      match rest with
      | [] => some a
      | _ :: _ => weightedGo pick (left + w) rest

/-- Weighted-mode selection for a single random draw `pick`. -/
def weightedSelect {α : Type _} (sets : List (α × ℚ)) (pick : ℚ) : Option α :=
  weightedGo pick 0 sets

/-- Modelled from the spec's words, for comparison with `weightedSelect`:
"pick a TestGroup using a single random draw in `[0,1)` mapped onto
cumulative weight intervals (intervals built by a stable left-to-right scan
of the list; ties broken by list order)" — the first interval of the
left-to-right cumulative scan that contains the draw. -/
def specFirstInterval {α : Type _} (pick : ℚ) : ℚ → List (α × ℚ) → Option α
  | _, [] => none
  | left, (a, w) :: rest =>
    if left ≤ pick ∧ pick ≤ left + w then some a
    else specFirstInterval pick (left + w) rest

/-! ### Predicates used by the termination analysis of `eval_expressions` -/

/-- The number of `}` characters in a string — the termination metric of the
expansion loop. -/
def ccount (s : Str) : Nat := s.count '}'

/-- No backslash escapes in the string. -/
def bsFree (s : Str) : Prop := '\\' ∉ s

/-- A value that re-introduces no closing brace and no escape when expanded
into the text. -/
def goodVal (s : Str) : Prop := '}' ∉ s ∧ '\\' ∉ s

/-- Every value in the store is `goodVal`. -/
def storeGood (vars : Store) : Prop := ∀ p ∈ vars, goodVal p.2

/-- Every result of the macro registry is `goodVal`. -/
def mfnGood (mfn : MacFn) : Prop := ∀ n a r, mfn n a = some r → goodVal r

instance (s : Str) : Decidable (bsFree s) := by unfold bsFree; infer_instance

instance (s : Str) : Decidable (goodVal s) := by unfold goodVal; infer_instance

instance (vars : Store) : Decidable (storeGood vars) := by
  unfold storeGood; infer_instance

/-! ### Concrete fixtures for witnesses and counterexamples -/

/-- A request with a blank capture block (whitespace only), like the login
request of `tests/data/login.webtest`. -/
def reqBlankCapture : Request :=
  { url := stl "http://x/", method := stl "GET", body := [], headers := [],
    parameters := [], capture := stl "  \n ", description := [], line_number := 4 }

/-- A request whose capture block is the specification's parenthesized
example line. -/
def reqSidCapture : Request :=
  { url := stl "http://x/", method := stl "GET", body := [], headers := [],
    parameters := [], capture := stl "\x7bSID = <SID>([^<]+)</SID>\x7d",
    description := [], line_number := 7 }

/-- A request with two capture lines; the first matches the fixture body
below, the second does not. -/
def reqTwoCaptures : Request :=
  { url := stl "http://x/", method := stl "GET", body := [], headers := [],
    parameters := [], capture := stl "\x7bA = hello\x7d\n\x7bB = bye\x7d",
    description := [], line_number := 9 }

/-- A request whose single capture line carries an assignment-shaped
expression inside its pattern part. -/
def reqAssignPattern : Request :=
  { url := stl "http://x/", method := stl "GET", body := [], headers := [],
    parameters := [], capture := stl "\x7bA = x\x7bB = y\x7dz\x7d",
    description := [], line_number := 11 }

/-- A request whose method is neither GET nor POST. -/
def reqBadMethod : Request :=
  { url := stl "http://x/", method := stl "DELETE", body := [], headers := [],
    parameters := [], capture := [], description := [], line_number := 2 }

/-! ## Claims -/

/-- Claim C1.  The macro-assignment rule is the first rule tried, but its
name class is `[_A-Z0-0-99]` (`runner.py` line 574), which omits the digits
`1`-`8`.  For the name `A1` and the registered macro `today`, the expression
`{A1 = today(x)}` does not invoke the macro: the macro rule fails to match
and the literal-assignment rule assigns the literal string `today(x)` to
`A1`.  For the digit-free name `AB` the macro is invoked as the claim
describes, showing the intent of the rule order. -/
theorem C1_digit_names_skip_macro_rule :
    eval_expressions mfnDemo 5 [] (stl "\x7bA1 = today(x)\x7d") =
      ([(stl "A1", stl "today(x)")], .ok (stl "today(x)")) ∧
    eval_expressions mfnDemo 5 [] (stl "\x7bAB = today(x)\x7d") =
      ([(stl "AB", stl "20111006")], .ok (stl "20111006")) := by
  decide

/-- Claim C2, counterexample.  With the store `FOO ↦ "{FOO}"`, one iteration
of the expansion loop on the text `{FOO}` produces the text `{FOO}` again:
the count of un-expanded `{...}` blocks is not reduced, and the loop does
not finish within any number of iterations (shown here for fuel 9). -/
theorem C2_counterexample_self_reference :
    matchExpansion (stl "\x7bFOO\x7d") = some ([], stl "FOO", []) ∧
    evalStep mfnDemo [(stl "FOO", stl "\x7bFOO\x7d")] (stl "FOO") =
      .ok (stl "\x7bFOO\x7d", [(stl "FOO", stl "\x7bFOO\x7d")]) ∧
    eval_expressions mfnDemo 9 [(stl "FOO", stl "\x7bFOO\x7d")] (stl "\x7bFOO\x7d") =
      ([(stl "FOO", stl "\x7bFOO\x7d")], .error .noFuel) := by
  decide

/-- Claim C3.  `eval_capture` returns Python `None` on every path (bare
`return` for a blank capture block, falling off the end otherwise): evaluated
on a request with a blank capture block it returns `None` (the repository's
own test `test_eval_capture_empty` asserts the return value equals `0`), and
on a request with one well-formed matching capture line it also returns
`None` (the test `test_eval_capture_single_parenthesized` asserts `1`),
although the variable is set as documented. -/
theorem C3_eval_capture_returns_no_count :
    eval_capture reSearch mfnDemo 5 reqBlankCapture (stl "<SID>1</SID>") [] =
      ([], .ok none) ∧
    eval_capture reSearch mfnDemo 5 reqSidCapture
        (stl "<x/><SID>314159265</SID><y/>") [] =
      ([(stl "SID", stl "314159265")], .ok none) ∧
    (none : Option Nat) ≠ some 0 ∧ (none : Option Nat) ≠ some 1 := by
  decide

/-- Claim C4, counterexample.  A block with two capture lines, where the
first line matches the response body and the second does not: the evaluator
raises `CaptureFailed`, but the variable store is not left unchanged — the
first line's variable `A` has been set. -/
theorem C4_counterexample_partial_capture :
    eval_capture reSearch mfnDemo 5 reqTwoCaptures (stl "say hello world") [] =
      ([(stl "A", stl "hello")], .error .captureFailed) ∧
    ([(stl "A", stl "hello")] : Store) ≠ [] := by
  decide

/-- Scanning for the opening brace decomposes the input. -/
theorem takeUntilOpen_decomp (s : Str) :
    ∀ b r, takeUntilOpen s = some (b, r) → s = b ++ '{' :: r := by
  induction s using takeUntilOpen.induct <;> intro b r h <;>
    rw [takeUntilOpen.eq_def] at h <;> (try simp_all) <;> aesop

/-- Scanning for the closing brace decomposes the input. -/
theorem takeUntilClose_decomp (s : Str) :
    ∀ b r, takeUntilClose s = some (b, r) → s = b ++ '}' :: r := by
  induction s using takeUntilClose.induct <;> intro b r h <;>
    rw [takeUntilClose.eq_def] at h <;> (try simp_all) <;> aesop

/-- Without backslash escapes, the matched expression contains no `}`. -/
theorem takeUntilClose_expr (s : Str) :
    ∀ b r, '\\' ∉ s → takeUntilClose s = some (b, r) → '}' ∉ b := by
  induction s using takeUntilClose.induct with
  | case8 d rest2 hd1 hd2 b0 r0 hsome ih =>
    intro b r hbs h
    rw [takeUntilClose.eq_def] at h
    simp [hd1, hd2, hsome] at h
    obtain ⟨hb, hr⟩ := h
    subst hb
    simp only [List.mem_cons, not_or] at hbs ⊢
    refine ⟨fun hc => hd1 hc.symm, ?_⟩
    exact ih b0 r0 hbs.2 hsome
  | _ =>
    intro b r hbs h
    rw [takeUntilClose.eq_def] at h
    simp_all

/-- A string without `{` has no expression to expand. -/
theorem takeUntilOpen_none (s : Str) (h : '{' ∉ s) : takeUntilOpen s = none := by
  induction s using takeUntilOpen.induct <;> rw [takeUntilOpen.eq_def] <;> simp_all

/-- A successful `re_expansion` match decomposes the value around the first
unescaped brace pair; group 3 stops at the first newline. -/
theorem matchExpansion_decomp (value b e a : Str)
    (h : matchExpansion value = some (b, e, a)) :
    ∃ rest, value = b ++ '{' :: (e ++ '}' :: rest) ∧
      a = rest.takeWhile (· ≠ '\n') := by
  unfold matchExpansion at h
  split at h
  · simp at h
  · next b0 r1 heq1 =>
    split at h
    · simp at h
    · next e0 rest heq2 =>
      simp only [Option.some_inj, Prod.mk.injEq] at h
      obtain ⟨hb, he, ha⟩ := h
      subst hb; subst he; subst ha
      refine ⟨rest, ?_, rfl⟩
      rw [takeUntilOpen_decomp value b0 r1 heq1,
        takeUntilClose_decomp r1 e0 rest heq2]

/-- Under `bsFree`, the matched expression contains no `}` character. -/
theorem matchExpansion_expr (value b e a : Str) (hbs : bsFree value)
    (h : matchExpansion value = some (b, e, a)) : '}' ∉ e := by
  unfold matchExpansion at h
  split at h
  · simp at h
  · next b0 r1 heq1 =>
    split at h
    · simp at h
    · next e0 rest heq2 =>
      simp only [Option.some_inj, Prod.mk.injEq] at h
      obtain ⟨hb, he, ha⟩ := h
      subst hb; subst he; subst ha
      have hbsr1 : '\\' ∉ r1 := by
        have hv := takeUntilOpen_decomp value b0 r1 heq1
        rw [bsFree, hv] at hbs
        simp only [List.mem_append, List.mem_cons, not_or] at hbs
        exact hbs.2.2
      exact takeUntilClose_expr r1 e0 rest hbsr1 heq2

/-- `re_expansion` does not match a brace-free string. -/
theorem matchExpansion_none (s : Str) (h : '{' ∉ s) : matchExpansion s = none := by
  unfold matchExpansion
  rw [takeUntilOpen_none s h]

/-- `eval_expressions` on a brace-free value returns it unchanged and does
not touch the store. -/
theorem eval_expressions_no_brace (mfn : MacFn) (fuel : Nat) (vars : Store)
    (value : Str) (h : '{' ∉ value) :
    eval_expressions mfn fuel vars value = (vars, .ok value) := by
  unfold eval_expressions
  rw [matchExpansion_none value h]

/-- Members of a `takeWhile` prefix are members of the list. -/
theorem mem_of_takeWhile {c : Char} {p : Char → Bool} {l : Str}
    (h : c ∈ l.takeWhile p) : c ∈ l :=
  (List.takeWhile_sublist p).subset h

/-- Members of a `dropWhile` suffix are members of the list. -/
theorem mem_of_dropWhile {c : Char} {p : Char → Bool} {l : Str}
    (h : c ∈ l.dropWhile p) : c ∈ l :=
  (List.dropWhile_sublist p).subset h

/-- The count of a character in a `takeWhile` prefix is bounded by its count
in the whole list. -/
theorem count_takeWhile_le (c : Char) (p : Char → Bool) (l : Str) :
    (l.takeWhile p).count c ≤ l.count c :=
  (List.takeWhile_sublist p).count_le c

/-- Looked-up values of a good store are good. -/
theorem storeGood_lookup (vars : Store) (h : storeGood vars) (n v : Str)
    (hl : lookupVar vars n = some v) : goodVal v := by
  induction vars with
  | nil => simp [lookupVar] at hl
  | cons p rest ih =>
    obtain ⟨k, w⟩ := p
    unfold lookupVar at hl
    split at hl
    · simp only [Option.some_inj] at hl
      subst hl
      exact h (k, w) (by simp)
    · exact ih (fun q hq => h q (List.mem_cons_of_mem _ hq)) hl

/-- Assigning a good value preserves a good store. -/
theorem storeGood_set (vars : Store) (h : storeGood vars) (n v : Str)
    (hv : goodVal v) : storeGood (setVar vars n v) := by
  induction vars with
  | nil =>
    intro q hq
    simp only [setVar, List.mem_singleton] at hq
    subst hq
    exact hv
  | cons p rest ih =>
    obtain ⟨k, w⟩ := p
    intro q hq
    unfold setVar at hq
    split at hq
    · rcases List.mem_cons.mp hq with hq1 | hq1
      · subst hq1; exact hv
      · exact h q (List.mem_cons_of_mem _ hq1)
    · rcases List.mem_cons.mp hq with hq1 | hq1
      · subst hq1; exact h (k, w) (by simp)
      · exact ih (fun q2 hq2 => h q2 (List.mem_cons_of_mem _ hq2)) q hq1

/-- The literal produced by the literal-assignment rule consists of
characters of the expression (or a space introduced by the optional-space
backtracking). -/
theorem matchVarLiteral_mem (e name lit : Str)
    (h : matchVarLiteral e = some (name, lit)) :
    ∀ c ∈ lit, c ∈ e ∨ c = ' ' := by
  have hr : ∀ c ∈ e.dropWhile isVarChar, c ∈ e := fun _ hc => mem_of_dropWhile hc
  unfold matchVarLiteral at h
  dsimp only at h
  split at h
  · simp at h
  all_goals
    unfold matchVarLiteral.matchVarLiteralTail at h
  case isFalse hne =>
    split at h
    case h_1 r2 heq =>
      split at h
      case h_1 rest2 heq2 =>
        dsimp only at h
        split at h <;> simp only [Option.some_inj, Prod.mk.injEq] at h <;>
          obtain ⟨hn, hl⟩ := h <;> subst hl
        · intro c hc
          simp only [List.mem_singleton] at hc
          exact Or.inr hc
        · intro c hc
          have h1 := mem_of_takeWhile hc
          refine Or.inl (hr c ?_)
          rw [heq]
          simp [h1]
      case h_2 =>
        dsimp only at h
        split at h
        · simp at h
        · simp only [Option.some_inj, Prod.mk.injEq] at h
          obtain ⟨hn, hl⟩ := h
          subst hl
          intro c hc
          have h1 : c ∈ e.dropWhile isVarChar := by
            rw [heq]; simp [mem_of_takeWhile hc]
          exact Or.inl (hr c h1)
    case h_2 r2 heq =>
      split at h
      case h_1 rest2 heq2 =>
        dsimp only at h
        split at h <;> simp only [Option.some_inj, Prod.mk.injEq] at h <;>
          obtain ⟨hn, hl⟩ := h <;> subst hl
        · intro c hc
          simp only [List.mem_singleton] at hc
          exact Or.inr hc
        · intro c hc
          have h1 := mem_of_takeWhile hc
          refine Or.inl (hr c ?_)
          rw [heq]
          simp [h1]
      case h_2 =>
        dsimp only at h
        split at h
        · simp at h
        · simp only [Option.some_inj, Prod.mk.injEq] at h
          obtain ⟨hn, hl⟩ := h
          subst hl
          intro c hc
          have h1 : c ∈ e.dropWhile isVarChar := by
            rw [heq]; simp [mem_of_takeWhile hc]
          exact Or.inl (hr c h1)
    case h_3 => simp at h

/-- `evalStep` never reports fuel exhaustion. -/
theorem evalStep_not_noFuel (mfn : MacFn) (vars : Store) (e : Str) :
    evalStep mfn vars e ≠ .error .noFuel := by
  unfold evalStep
  repeat' split
  all_goals simp

/-- A successful `evalStep` with a good store, good macro registry, and an
expression free of `}` and `\` produces a good expansion and a good store. -/
theorem evalStep_good (mfn : MacFn) (vars : Store) (e x : Str) (vars2 : Store)
    (hm : mfnGood mfn) (hv : storeGood vars) (he : '}' ∉ e) (he2 : '\\' ∉ e)
    (h : evalStep mfn vars e = .ok (x, vars2)) : goodVal x ∧ storeGood vars2 := by
  unfold evalStep at h
  split at h
  case h_1 name mname args heqm =>
    split at h
    case h_1 res heqr =>
      simp only [Except.ok.injEq, Prod.mk.injEq] at h
      obtain ⟨hx, hv2⟩ := h
      subst hx; subst hv2
      exact ⟨hm _ _ _ heqr, storeGood_set vars hv name res (hm _ _ _ heqr)⟩
    case h_2 => simp at h
  case h_2 heqm =>
    split at h
    case h_1 name lit heql =>
      simp only [Except.ok.injEq, Prod.mk.injEq] at h
      obtain ⟨hx, hv2⟩ := h
      subst hx; subst hv2
      have hmem := matchVarLiteral_mem e name lit heql
      have hgood : goodVal lit := by
        constructor
        · intro hc
          rcases hmem '}' hc with h1 | h1
          · exact he h1
          · exact absurd h1 (by decide)
        · intro hc
          rcases hmem '\\' hc with h1 | h1
          · exact he2 h1
          · exact absurd h1 (by decide)
      exact ⟨hgood, storeGood_set vars hv name lit hgood⟩
    case h_2 heql =>
      split at h
      case h_1 mname args heqc =>
        split at h
        case h_1 res heqr =>
          simp only [Except.ok.injEq, Prod.mk.injEq] at h
          obtain ⟨hx, hv2⟩ := h
          subst hx; subst hv2
          exact ⟨hm _ _ _ heqr, hv⟩
        case h_2 => simp at h
      case h_2 heqc =>
        split at h
        case h_1 name heqn =>
          split at h
          case h_1 v heqv =>
            simp only [Except.ok.injEq, Prod.mk.injEq] at h
            obtain ⟨hx, hv2⟩ := h
            subst hx; subst hv2
            exact ⟨storeGood_lookup vars hv name v heqv, hv⟩
          case h_2 => simp at h
        case h_2 => simp at h

/-- One successful iteration of the expansion loop strictly decreases the
number of `}` characters and preserves the invariants, provided the input is
backslash-free and the store and macro registry are good. -/
theorem expansion_step_good (mfn : MacFn) (vars vars2 : Store)
    (value b e a x : Str) (hm : mfnGood mfn) (hst : storeGood vars)
    (hbs : bsFree value) (hme : matchExpansion value = some (b, e, a))
    (hstep : evalStep mfn vars e = .ok (x, vars2)) :
    ccount (b ++ x ++ a) < ccount value ∧ bsFree (b ++ x ++ a) ∧
      storeGood vars2 := by
  obtain ⟨rest, hv, ha⟩ := matchExpansion_decomp value b e a hme
  have hce : '}' ∉ e := matchExpansion_expr value b e a hbs hme
  have hbsparts : '\\' ∉ b ∧ '\\' ∉ e ∧ '\\' ∉ rest := by
    rw [bsFree, hv] at hbs
    simp only [List.mem_append, List.mem_cons, not_or] at hbs
    exact ⟨hbs.1, hbs.2.2.1, hbs.2.2.2.2⟩
  have hgood := evalStep_good mfn vars e x vars2 hm hst hce hbsparts.2.1 hstep
  refine ⟨?_, ?_, hgood.2⟩
  · have hcx : x.count '}' = 0 := List.count_eq_zero.mpr hgood.1.1
    have hcte : e.count '}' = 0 := List.count_eq_zero.mpr hce
    have hca : a.count '}' ≤ rest.count '}' := by
      rw [ha]; exact count_takeWhile_le '}' _ rest
    have hb1 : (('{' : Char) == '}') = false := by decide
    have hb2 : (('}' : Char) == '}') = true := by decide
    rw [ccount, ccount, hv]
    simp [List.count_append, List.count_cons, hb1, hb2]
    omega
  · have hx : '\\' ∉ x := hgood.1.2
    have haa : '\\' ∉ a := by
      rw [ha]
      intro hmem
      exact hbsparts.2.2 (mem_of_takeWhile hmem)
    rw [bsFree]
    simp only [List.mem_append, not_or]
    exact ⟨⟨hbsparts.1, hx⟩, haa⟩

/-- With a backslash-free input and good store and registry, the expansion
loop finishes within `ccount value` iterations. -/
theorem eval_expressions_not_noFuel (mfn : MacFn) (hm : mfnGood mfn) :
    ∀ (fuel : Nat) (vars : Store) (value : Str), bsFree value →
      storeGood vars → ccount value ≤ fuel →
      (eval_expressions mfn fuel vars value).2 ≠ .error .noFuel := by
  intro fuel
  induction fuel with
  | zero =>
    intro vars value hbs hst hc
    unfold eval_expressions
    cases hme : matchExpansion value with
    | none => simp
    | some bea =>
      obtain ⟨b, e, a⟩ := bea
      exfalso
      obtain ⟨rest, hv, -⟩ := matchExpansion_decomp value b e a hme
      have hmem : '}' ∈ value := by rw [hv]; simp
      have h0 : ccount value = 0 := Nat.le_zero.mp hc
      rw [ccount, List.count_eq_zero] at h0
      exact h0 hmem
  | succ f ih =>
    intro vars value hbs hst hc
    cases hme : matchExpansion value with
    | none =>
      unfold eval_expressions
      rw [hme]
      simp
    | some bea =>
      obtain ⟨b, e, a⟩ := bea
      cases hstep : evalStep mfn vars e with
      | error err =>
        unfold eval_expressions
        rw [hme]
        dsimp only
        rw [hstep]
        dsimp only
        intro hcontra
        injection hcontra with herr
        exact evalStep_not_noFuel mfn vars e (herr ▸ hstep)
      | ok p =>
        obtain ⟨x, vars2⟩ := p
        have hgood := expansion_step_good mfn vars vars2 value b e a x hm hst
          hbs hme hstep
        have hrec := ih vars2 (b ++ x ++ a) hgood.2.1 hgood.2.2
          (by have := hgood.1; omega)
        unfold eval_expressions
        rw [hme]
        dsimp only
        rw [hstep]
        exact hrec

/-- Claim C2 (amended).  The claimed strict decrease of un-expanded blocks
fails in general (see the counterexample): an expansion can re-introduce
`{...}` text.  What holds is: when the input text contains no backslash and
every store value and macro result contains neither `}` nor backslash, each
loop iteration strictly decreases the number of `}` characters of the text,
and consequently the loop terminates within `ccount value` iterations. -/
theorem C2_termination_with_good_values (mfn : MacFn) (fuel : Nat)
    (vars : Store) (value : Str) (hm : mfnGood mfn) (hbs : bsFree value)
    (hst : storeGood vars) (hfuel : ccount value ≤ fuel) :
    (∀ b e a x vars2, matchExpansion value = some (b, e, a) →
        evalStep mfn vars e = .ok (x, vars2) →
        ccount (b ++ x ++ a) < ccount value) ∧
    (eval_expressions mfn fuel vars value).2 ≠ .error .noFuel := by
  constructor
  · intro b e a x vars2 hme hstep
    exact (expansion_step_good mfn vars vars2 value b e a x hm hst hbs hme
      hstep).1
  · exact eval_expressions_not_noFuel mfn hm fuel vars value hbs hst hfuel

/-- Witness for C2 (amended): a concrete two-expression text over the store
`X ↦ v` terminates within fuel 3. -/
theorem C2_termination_witness :
    mfnGood mfnDemo ∧ bsFree (stl "a\x7bX\x7db\x7bX\x7dc") ∧
      storeGood [(stl "X", stl "v")] ∧ ccount (stl "a\x7bX\x7db\x7bX\x7dc") ≤ 3 ∧
      (eval_expressions mfnDemo 3 [(stl "X", stl "v")]
          (stl "a\x7bX\x7db\x7bX\x7dc")).2 ≠ .error .noFuel := by
  have hm : mfnGood mfnDemo := by
    intro n a r h
    unfold mfnDemo at h
    split at h
    · simp only [Option.some_inj] at h
      subst h
      decide
    · simp at h
  refine ⟨hm, by decide, by decide, by decide, ?_⟩
  exact (C2_termination_with_good_values mfnDemo 3 [(stl "X", stl "v")]
    (stl "a\x7bX\x7db\x7bX\x7dc") hm (by decide) (by decide) (by decide)).2

/-- Scanning a prefix free of `{` and `\` reaches the first `{`. -/
theorem takeUntilOpen_prepend (a : Str) (rest : Str)
    (ha1 : '{' ∉ a) (ha2 : '\\' ∉ a) :
    takeUntilOpen (a ++ '{' :: rest) = some (a, rest) := by
  induction a with
  | nil =>
    rw [List.nil_append, takeUntilOpen.eq_def]
    simp
  | cons c a2 ih =>
    simp only [List.mem_cons, not_or] at ha1 ha2
    have hc1 : ¬c = '{' := fun h => ha1.1 h.symm
    have hc2 : ¬c = '\\' := fun h => ha2.1 h.symm
    rw [List.cons_append, takeUntilOpen.eq_def]
    simp [hc1, hc2, ih ha1.2 ha2.2]

/-- Scanning a prefix free of `}` and `\` reaches the first `}`. -/
theorem takeUntilClose_prepend (a : Str) (rest : Str)
    (ha1 : '}' ∉ a) (ha2 : '\\' ∉ a) :
    takeUntilClose (a ++ '}' :: rest) = some (a, rest) := by
  induction a with
  | nil =>
    rw [List.nil_append, takeUntilClose.eq_def]
    simp
  | cons c a2 ih =>
    simp only [List.mem_cons, not_or] at ha1 ha2
    have hc1 : ¬c = '}' := fun h => ha1.1 h.symm
    have hc2 : ¬c = '\\' := fun h => ha2.1 h.symm
    rw [List.cons_append, takeUntilClose.eq_def]
    simp [hc1, hc2, ih ha1.2 ha2.2]

/-- On a bare all-uppercase name the macro-assignment rule fails (there is
no `=`). -/
theorem matchVarMac_name_none (V : Str) (hV : ∀ c ∈ V, isVarChar c = true) :
    matchVarMac V = none := by
  unfold matchVarMac
  dsimp only
  split
  · rfl
  · split
    · next heq =>
      have hsp : ' ' ∈ V := by
        have : ' ' ∈ V.dropWhile isVarMacChar := by rw [heq]; simp
        exact mem_of_dropWhile this
      have := hV ' ' hsp
      simp [isVarChar] at this
    · next heq =>
      have hsp : '=' ∈ V := by
        have : '=' ∈ V.dropWhile isVarMacChar := by rw [heq]; simp
        exact mem_of_dropWhile this
      have := hV '=' hsp
      simp [isVarChar] at this
    · rfl

/-- On a bare all-uppercase name the literal-assignment rule fails. -/
theorem matchVarLiteral_name_none (V : Str) (hV : ∀ c ∈ V, isVarChar c = true) :
    matchVarLiteral V = none := by
  unfold matchVarLiteral
  dsimp only
  have hr : V.dropWhile isVarChar = [] := List.dropWhile_eq_nil_iff.mpr hV
  rw [hr]
  split
  · rfl
  · rfl

/-- On a bare all-uppercase name the macro-call rule fails (there is no
opening parenthesis). -/
theorem matchMacCall_name_none (V : Str) (hV : ∀ c ∈ V, isVarChar c = true) :
    matchMacCall V = none := by
  unfold matchMacCall
  dsimp only
  split
  · rfl
  · split
    · next heq =>
      have hsp : '(' ∈ V := by
        have : '(' ∈ V.dropWhile isMacChar := by rw [heq]; simp
        exact mem_of_dropWhile this
      have := hV '(' hsp
      simp [isVarChar] at this
    · rfl

/-- On a bare all-uppercase name the variable-reference rule matches the
whole name. -/
theorem matchVarRef_name (V : Str) (hV0 : V ≠ [])
    (hV : ∀ c ∈ V, isVarChar c = true) : matchVarRef V = some V := by
  unfold matchVarRef
  dsimp only
  rw [List.takeWhile_eq_self_iff.mpr hV]
  simp [hV0]

/-- Evaluating a bare initialized variable name expands to its value and
leaves the store untouched. -/
theorem evalStep_lookup (mfn : MacFn) (vars : Store) (V v : Str)
    (hV0 : V ≠ []) (hV : ∀ c ∈ V, isVarChar c = true)
    (hv : lookupVar vars V = some v) : evalStep mfn vars V = .ok (v, vars) := by
  unfold evalStep
  rw [matchVarMac_name_none V hV, matchVarLiteral_name_none V hV,
    matchMacCall_name_none V hV, matchVarRef_name V hV0 hV]
  dsimp only
  rw [hv]

/-- Claim C9 (amended).  The pattern part of a capture line is expanded by
the full expression evaluator, so assignment-shaped contents really do
assign (see the counterexample).  What holds is: a pattern made of plain
text around a `{VAR}` reference to an initialized variable expands to the
pattern with the reference replaced by the variable's value and leaves the
variable store exactly as it was. -/
theorem C9_plain_lookup_preserves_store (mfn : MacFn) (fuel : Nat)
    (vars : Store) (a V v b : Str)
    (ha1 : '{' ∉ a) (ha2 : '\\' ∉ a)
    (hV0 : V ≠ []) (hV : ∀ c ∈ V, isVarChar c = true)
    (hb1 : '{' ∉ b) (hb2 : '\n' ∉ b)
    (hv : lookupVar vars V = some v) (hv1 : '{' ∉ v)
    (hfuel : 1 ≤ fuel) :
    eval_expressions mfn fuel vars (a ++ '{' :: (V ++ '}' :: b)) =
      (vars, .ok (a ++ v ++ b)) := by
  have hVc : '}' ∉ V := fun hmem => by have := hV '}' hmem; simp [isVarChar] at this
  have hVb : '\\' ∉ V := fun hmem => by have := hV '\\' hmem; simp [isVarChar] at this
  have hme : matchExpansion (a ++ '{' :: (V ++ '}' :: b)) = some (a, V, b) := by
    unfold matchExpansion
    rw [takeUntilOpen_prepend a (V ++ '}' :: b) ha1 ha2]
    dsimp only
    rw [takeUntilClose_prepend V b hVc hVb]
    dsimp only
    have hb : b.takeWhile (· ≠ '\n') = b :=
      List.takeWhile_eq_self_iff.mpr (fun x hx => by
        simp only [decide_eq_true_eq]
        exact fun hEq => hb2 (hEq ▸ hx))
    rw [hb]
  cases fuel with
  | zero => omega
  | succ f =>
    unfold eval_expressions
    rw [hme]
    dsimp only
    rw [evalStep_lookup mfn vars V v hV0 hV hv]
    dsimp only
    apply eval_expressions_no_brace
    simp only [List.mem_append, not_or]
    exact ⟨⟨ha1, fun h => hv1 h⟩, hb1⟩

/-- Witness for C9 (amended): expanding the spec's example pattern
`<div id="{ORDER_NUMBER}">(.*)</div>` with `ORDER_NUMBER ↦ 12345` yields
`<div id="12345">(.*)</div>` and leaves the store unchanged. -/
theorem C9_plain_lookup_witness :
    eval_expressions mfnDemo 2 [(stl "ORDER_NUMBER", stl "12345")]
        (stl "<div id=" ++ '"' :: ('{' :: (stl "ORDER_NUMBER" ++ '}' ::
          ('"' :: stl ">(.*)</div>")))) =
      ([(stl "ORDER_NUMBER", stl "12345")],
        .ok (stl "<div id=" ++ '"' :: (stl "12345" ++ '"' :: stl ">(.*)</div>"))) := by
  have h := C9_plain_lookup_preserves_store mfnDemo 2
    [(stl "ORDER_NUMBER", stl "12345")]
    (stl "<div id=" ++ ['"']) (stl "ORDER_NUMBER") (stl "12345")
    ('"' :: stl ">(.*)</div>")
    (by decide) (by decide) (by decide) (by decide) (by decide) (by decide)
    (by decide) (by decide) (by decide)
  simpa using h

/-- Claim C9, counterexample.  Expanding the pattern part of the capture
line `{A = x{B = y}z}` runs the full expression evaluator, and the
assignment-shaped content `{B = y}` is a real assignment, not a plain
variable lookup: after pattern expansion (before matching) the store has
gained `B ↦ y`, so it does not equal its prior (empty) state. -/
theorem C9_counterexample_assignment_in_pattern :
    matchCapture (stl "\x7bA = x\x7bB = y\x7dz\x7d") = some (stl "A", stl "x\x7bB = y\x7dz") ∧
    eval_expressions mfnDemo 5 [] (stl "x\x7bB = y\x7dz") =
      ([(stl "B", stl "y")], .ok (stl "xyz")) ∧
    ([(stl "B", stl "y")] : Store) ≠ [] ∧
    eval_capture reSearch mfnDemo 5 reqAssignPattern (stl "wxyz") [] =
      ([(stl "B", stl "y"), (stl "A", stl "xyz")], .ok none) := by
  decide


/-- Claim C4 (amended).  On `CaptureFailed` the store keeps every variable
set by the earlier lines of the same block and any assignment made while
expanding patterns (see the counterexample); for a request whose capture
block is a single line with a brace-free pattern that the searcher does not
match, the evaluator fails with `CaptureFailed` and the store is unchanged. -/
theorem C4_single_line_failure_preserves_store (search : SearchFn)
    (mfn : MacFn) (fuel : Nat) (req : Request) (body : Str) (vars : Store)
    (line name value : Str)
    (hblank : (strip req.capture).isEmpty = false)
    (hlines : req.captureLines = [line])
    (hcap : matchCapture line = some (name, value))
    (hnb : '{' ∉ value)
    (hsearch : search value body = none) :
    eval_capture search mfn fuel req body vars =
      (vars, .error .captureFailed) := by
  unfold eval_capture
  rw [if_neg (by simp [hblank])]
  rw [hlines]
  unfold evalCaptureLines
  rw [hcap]
  dsimp only
  rw [eval_expressions_no_brace mfn fuel vars value hnb]
  dsimp only
  rw [hsearch]

/-- Witness for C4 (amended): the single-line SID capture against a body
with no `<SID>` tag fails with `CaptureFailed`, store untouched. -/
theorem C4_single_line_failure_witness :
    eval_capture reSearch mfnDemo 5 reqSidCapture (stl "nothing here")
        [(stl "K", stl "v")] =
      ([(stl "K", stl "v")], .error .captureFailed) :=
  C4_single_line_failure_preserves_store reSearch mfnDemo 5 reqSidCapture
    (stl "nothing here") [(stl "K", stl "v")]
    (stl "\x7bSID = <SID>([^<]+)</SID>\x7d") (stl "SID") (stl "<SID>([^<]+)</SID>")
    (by decide) (by decide) (by decide) (by decide) (by decide)

/-- Claim C5.  For a well-formed capture line whose expanded pattern is
searched in the response body: on a successful match the variable is set to
the first capturing group's text when the match has groups, otherwise to the
entire matched span, and processing continues with the remaining lines on
the updated store; on a failed search evaluation aborts immediately with
`CaptureFailed` — the result does not depend on the remaining lines. -/
theorem C5_group_selection_and_abort (search : SearchFn) (mfn : MacFn)
    (fuel : Nat) (body line : Str) (rest : List Str) (vars vars1 : Store)
    (name value rx : Str)
    (hline : matchCapture line = some (name, value))
    (heval : eval_expressions mfn fuel vars value = (vars1, .ok rx)) :
    (∀ m : ReMatch, search rx body = some m →
      evalCaptureLines search mfn fuel body (line :: rest) vars =
        evalCaptureLines search mfn fuel body rest
          (setVar vars1 name (match m.groups with
            | [] => m.full
            | g :: _ => g))) ∧
    (search rx body = none →
      evalCaptureLines search mfn fuel body (line :: rest) vars =
        (vars1, .error .captureFailed)) := by
  constructor
  · intro m hm
    conv_lhs => unfold evalCaptureLines
    rw [hline]
    dsimp only
    rw [heval]
    dsimp only
    rw [hm]
    dsimp only [groupValue]
  · intro hm
    unfold evalCaptureLines
    rw [hline]
    dsimp only
    rw [heval]
    dsimp only
    rw [hm]

/-- Witness for C5: the specification's example.  The parenthesized pattern
sets `SID` to the group text `314159265`; the unparenthesized variant would
set it to the full tag (second conjunct). -/
theorem C5_group_selection_witness :
    reSearch (stl "<SID>([^<]+)</SID>") (stl "<x/><SID>314159265</SID>") =
      some ⟨stl "<SID>314159265</SID>", [stl "314159265"]⟩ ∧
    reSearch (stl "<SID>[^<]+</SID>") (stl "<x/><SID>314159265</SID>") =
      some ⟨stl "<SID>314159265</SID>", []⟩ ∧
    evalCaptureLines reSearch mfnDemo 5 (stl "<x/><SID>314159265</SID>")
        [stl "\x7bSID = <SID>([^<]+)</SID>\x7d"] [] =
      ([(stl "SID", stl "314159265")], .ok ()) := by
  refine ⟨by decide, by decide, ?_⟩
  have h := (C5_group_selection_and_abort reSearch mfnDemo 5
      (stl "<x/><SID>314159265</SID>") (stl "\x7bSID = <SID>([^<]+)</SID>\x7d")
      [] [] [] (stl "SID") (stl "<SID>([^<]+)</SID>")
      (stl "<SID>([^<]+)</SID>") (by decide) (by decide)).1
      ⟨stl "<SID>314159265</SID>", [stl "314159265"]⟩ (by decide)
  rw [h]
  decide

/-- Claim C6, counterexample.  Character data outside any recognized
container element does not make parsing fail: the handler silently ignores
it (`parser.py` line 258) and the parse succeeds. -/
theorem C6_counterexample_stray_characters :
    runHandler initHandler
      [.start (stl "Root") [] 1, .chars (stl "hello"), .stop (stl "Root")] =
      .ok { request := none, requests := [], in_element := [] } := by
  decide

/-- Claim C6 (amended).  Character data outside the recognized content
elements is ignored; non-empty character data inside a recognized content
element while no request is open fails with `MalformedXML`; a header or
parameter element outside a request fails with `MalformedXML`; ill-formed
markup fails with `MalformedXML`. -/
theorem C6_malformed_conditions (st : HandlerState) (data name : Str)
    (attrs : List (Str × Str)) (line : Nat) :
    (st.in_element.isEmpty = true → charactersEvent st data = .ok st) ∧
    (data.isEmpty = false → st.in_element.isEmpty = false →
      st.request = none →
      charactersEvent st data = .error (stl "Characters not inside Request")) ∧
    (st.request = none →
      (name = stl "Header" ∨ name = stl "QueryStringParameter" ∨
        name = stl "FormPostParameter") →
      startElement st name attrs line = .error (stl "not inside Request")) ∧
    parseWebtest none = .error (stl "MalformedXML") := by
  refine ⟨?_, ?_, ?_, rfl⟩
  · intro h
    unfold charactersEvent
    rw [if_pos (Or.inr h)]
  · intro h1 h2 h3
    unfold charactersEvent
    rw [if_neg (by simp [h1, h2]), h3]
  · intro h1 h2
    rcases h2 with h2 | h2 | h2 <;> subst h2 <;> unfold startElement
    · rw [if_neg (by decide), if_pos rfl, h1]
    · rw [if_neg (by decide), if_neg (by decide), if_pos (Or.inl rfl), h1]
    · rw [if_neg (by decide), if_neg (by decide), if_pos (Or.inr rfl), h1]

/-- Witness for C6 (amended): concrete handler states exhibiting the ignore
case, the character-data failure, and the stray-header failure. -/
theorem C6_malformed_witness :
    charactersEvent { request := none, requests := [], in_element := [] }
        (stl "hello") = .ok { request := none, requests := [], in_element := [] } ∧
    charactersEvent { request := none, requests := [], in_element := stl "Capture" }
        (stl "x") = .error (stl "Characters not inside Request") ∧
    startElement { request := none, requests := [], in_element := [] }
        (stl "Header") [] 3 = .error (stl "not inside Request") :=
  ⟨(C6_malformed_conditions { request := none, requests := [], in_element := [] }
      (stl "hello") (stl "Header") [] 3).1 (by decide),
   (C6_malformed_conditions { request := none, requests := [], in_element := stl "Capture" }
      (stl "x") (stl "Header") [] 3).2.1 (by decide) (by decide) rfl,
   (C6_malformed_conditions { request := none, requests := [], in_element := [] }
      (stl "x") (stl "Header") [] 3).2.2.1 rfl (Or.inl rfl)⟩

/-- Claim C7.  In thread sequencing mode the worker with index `w` selects
exactly the TestGroup at index `w mod n` of the non-empty group list; with
two groups, worker indices 0–4 select `[G0, G1, G0, G1, G0]`. -/
theorem C7_thread_mode_selection {α : Type} (test_sets : List α) (w : Nat)
    (h : test_sets ≠ []) :
    threadSelect test_sets w =
      some (test_sets.get
        ⟨w % test_sets.length, Nat.mod_lt w (List.length_pos.mpr h)⟩) ∧
    ([0, 1, 2, 3, 4].map (threadSelect [stl "G0", stl "G1"])) =
      [some (stl "G0"), some (stl "G1"), some (stl "G0"), some (stl "G1"),
        some (stl "G0")] := by
  constructor
  · unfold threadSelect
    rw [if_neg (by simp [h])]
    exact List.get?_eq_get _
  · decide

/-- Witness for C7: worker 3 of two groups selects the group at index 1. -/
theorem C7_thread_mode_witness :
    ([stl "G0", stl "G1"] : List Str) ≠ [] ∧
    threadSelect [stl "G0", stl "G1"] 3 =
      some (([stl "G0", stl "G1"] : List Str).get ⟨3 % 2, by decide⟩) :=
  ⟨by decide, (C7_thread_mode_selection [stl "G0", stl "G1"] 3 (by decide)).1⟩

/-- Summing a list divided elementwise. -/
theorem sum_map_div (l : List ℚ) (c : ℚ) :
    (l.map (fun x => x / c)).sum = l.sum / c := by
  induction l with
  | nil => simp
  | cons x xs ih => simp [ih, add_div]

/-- After normalization the weights sum to 1 (when the total is nonzero). -/
theorem normalizeWeights_sum {α : Type _} (sets : List (α × ℚ))
    (htot : (sets.map Prod.snd).sum ≠ 0) :
    ((normalizeWeights sets).map Prod.snd).sum = 1 := by
  unfold normalizeWeights
  dsimp only
  rw [List.map_map]
  rw [show (Prod.snd ∘ fun p : α × ℚ => (p.1, p.2 / (sets.map Prod.snd).sum)) =
      ((fun x : ℚ => x / (sets.map Prod.snd).sum) ∘ Prod.snd) from rfl]
  rw [← List.map_map, sum_map_div]
  exact div_self htot

/-- The interval scan agrees with the first containing interval of the
left-to-right cumulative scan, whenever one exists. -/
theorem weightedGo_first {α : Type _} (pick : ℚ) (sets : List (α × ℚ)) :
    ∀ (left : ℚ) (a : α), specFirstInterval pick left sets = some a →
      weightedGo pick left sets = some a := by
  induction sets with
  | nil => intro left a h; simp [specFirstInterval] at h
  | cons p rest ih =>
    intro left a h
    obtain ⟨g, w⟩ := p
    unfold specFirstInterval at h
    unfold weightedGo
    by_cases hcond : left ≤ pick ∧ pick ≤ left + w
    · rw [if_pos hcond] at h ⊢
      exact h
    · rw [if_neg hcond] at h ⊢
      cases rest with
      | nil => simp [specFirstInterval] at h
      | cons q rest2 => exact ih (left + w) a h

/-- Claim C8.  At registry build time each weight is replaced by its weight
divided by the sum of all weights, making the weights sum to 1; selection
maps a single draw onto the cumulative intervals of a left-to-right scan
(first containing interval wins), and a draw on the boundary between two
intervals selects the earlier group in list order. -/
theorem C8_weighted_normalization_and_selection {α : Type _}
    (sets : List (α × ℚ)) (pick : ℚ) (a g1 g2 : α) (w1 w2 : ℚ)
    (rest : List (α × ℚ))
    (htot : (sets.map Prod.snd).sum ≠ 0) (hw1 : 0 ≤ w1) :
    (normalizeWeights sets =
      sets.map (fun p => (p.1, p.2 / (sets.map Prod.snd).sum))) ∧
    ((normalizeWeights sets).map Prod.snd).sum = 1 ∧
    (specFirstInterval pick 0 sets = some a →
      weightedSelect sets pick = some a) ∧
    (weightedSelect ((g1, w1) :: (g2, w2) :: rest) w1 = some g1) := by
  refine ⟨rfl, normalizeWeights_sum sets htot,
    fun h => weightedGo_first pick sets 0 a h, ?_⟩
  unfold weightedSelect weightedGo
  rw [if_pos ⟨hw1, by simp⟩]

/-- Witness for C8: groups weighted 1 and 3 normalize to 1/4 and 3/4 summing
to 1; the boundary draw 1/4 selects the earlier group. -/
theorem C8_weighted_witness :
    (([(stl "G0", (1 : ℚ)), (stl "G1", 3)].map Prod.snd).sum ≠ 0) ∧
    ((normalizeWeights [(stl "G0", (1 : ℚ)), (stl "G1", 3)]).map
        Prod.snd).sum = 1 ∧
    weightedSelect [(stl "G0", (1 : ℚ)/4), (stl "G1", 3/4)] (1/4) =
      some (stl "G0") := by
  have h := C8_weighted_normalization_and_selection
    [(stl "G0", (1 : ℚ)), (stl "G1", 3)] (1/4) (stl "G0") (stl "G0")
    (stl "G1") ((1 : ℚ)/4) (3/4) [] (by norm_num) (by norm_num)
  exact ⟨by norm_num, h.2.1, h.2.2.2⟩

/-- Claim C10.  A request-start marker without a Method attribute yields
method `GET`; one without a Url attribute, the empty url; the handler never
fails on a Request start element, whatever the attributes; a method other
than GET and POST is rejected only at execution time, with `ValueError`. -/
theorem C10_request_defaults_and_method_check (attrs : List (Str × Str))
    (line : Nat) (st : HandlerState) (http : HttpFn) (search : SearchFn)
    (mfn : MacFn) (fuel : Nat) (req : Request) (vars vars1 vars2 : Store)
    (url : Str) (params : List (Str × Str)) :
    (lookupVar attrs (stl "Method") = none →
      (mkRequest attrs line).method = stl "GET") ∧
    (lookupVar attrs (stl "Url") = none → (mkRequest attrs line).url = []) ∧
    (startElement st (stl "Request") attrs line =
      .ok { st with request := some (mkRequest attrs line) }) ∧
    (req.method ≠ stl "POST" → req.method ≠ stl "GET" →
      eval_expressions mfn fuel vars req.url = (vars1, .ok url) →
      evalParams mfn fuel req.parameters vars1 = (vars2, .ok params) →
      execute http search mfn fuel req vars = (vars2, .error .valueError)) := by
  refine ⟨?_, ?_, ?_, ?_⟩
  · intro h; simp [mkRequest, h]
  · intro h; simp [mkRequest, h]
  · unfold startElement
    rw [if_pos rfl]
  · intro h1 h2 h3 h4
    unfold execute
    rw [h3]
    dsimp only
    rw [h4]
    dsimp only
    rw [if_neg h1, if_neg h2]

/-- Witness for C10: a DELETE request parses fine but fails at execution
with `ValueError`. -/
theorem C10_request_defaults_witness :
    lookupVar [(stl "Url", stl "u")] (stl "Method") = none ∧
    (mkRequest [(stl "Url", stl "u")] 5).method = stl "GET" ∧
    execute (fun _ _ _ => []) reSearch mfnDemo 3 reqBadMethod [] =
      ([], .error .valueError) := by
  refine ⟨by decide, ?_, ?_⟩
  · exact (C10_request_defaults_and_method_check [(stl "Url", stl "u")] 5
      initHandler (fun _ _ _ => []) reSearch mfnDemo 3 reqBadMethod
      [] [] [] [] []).1 (by decide)
  · exact (C10_request_defaults_and_method_check [(stl "Url", stl "u")] 5
      initHandler (fun _ _ _ => []) reSearch mfnDemo 3 reqBadMethod
      [] [] [] (stl "http://x/") []).2.2.2 (by decide) (by decide)
      (by decide) (by decide)


end Webtest
